import Mathlib

/-!
Verification of the DTLN noise-reduction service (`src/services/dtln_model.py`,
`src/services/noise_reduction.py`) against its natural-language specification.

The development shallowly embeds the signal-processing layers of `DTLN_model`
(framing, STFT, inverse STFT, overlap-add, the two-stage masking data flow) and
the `NoiseReductionService` orchestration layer (singleton construction, model
loading, audio-file and audio-buffer processing).  Floating-point sample values
are modelled as rationals (exact real arithmetic); the spectral transform is
modelled over the real/complex numbers.  The learned components of the network
(LSTM separation kernels, encoder and decoder convolutions, the
`InstantLayerNormalization` weights) are opaque pretrained collaborators and
enter the model as abstract parameters, exactly as the spec treats them.
-/

namespace NoiseRed

/-! ## Framer: `tf.signal.frame` and `tf.signal.overlap_and_add`

`DTLN_model.stftLayer` calls `tf.signal.frame(x, 512, 128)` (no padding:
frame `i` is `x[i*128 : i*128+512]`, produced while a full 512-sample window
fits).  `DTLN_model.overlapAddLayer` calls
`tf.signal.overlap_and_add(x, 128)`. -/

/-- `blockLen` from `DTLN_model.__init__` (`self.blockLen = 512`). -/
def blockLen : ℕ := 512

/-- `block_shift` from `DTLN_model.__init__` (`self.block_shift = 128`). -/
def blockShift : ℕ := 128

/-- `tf.signal.frame(w, 512, 128)` with the default `pad_end=False`:
take the leading 512 samples as a frame, advance by 128, repeat while a full
frame fits; any shorter tail is dropped.  The extra `fuel` argument only
bounds the recursion depth (structurally), so that the function reduces in
the kernel; `tfFrame` instantiates it with the waveform length, which always
suffices. -/
def tfFrameAux {α : Type} : ℕ → List α → List (List α)
  | 0, _ => []
  | fuel + 1, w =>
    if 512 ≤ w.length then w.take 512 :: tfFrameAux fuel (w.drop 128) else []

/-- `tf.signal.frame(w, 512, 128)`, `pad_end=False`, as called by
`DTLN_model.stftLayer`. -/
def tfFrame {α : Type} (w : List α) : List (List α) :=
  tfFrameAux w.length w

/-- Pointwise sum of two buffers laid over each other at offset 0; the longer
buffer's tail is kept as is. -/
def addAligned {α : Type} [Add α] : List α → List α → List α
  | [], b => b
  | a :: as, [] => a :: as
  | a :: as, b :: bs => (a + b) :: addAligned as bs

/-- `tf.signal.overlap_and_add(frames, 128)`: each frame is summed into the
output buffer 128 samples after the previous one. -/
def overlapAdd {α : Type} [Add α] [Zero α] : List (List α) → List α
  | [] => []
  | f :: rest => addAligned f (List.replicate 128 (0 : α) ++ overlapAdd rest)

theorem addAligned_length {α : Type} [Add α] :
    ∀ a b : List α, (addAligned a b).length = max a.length b.length := by
  intro a
  induction a with
  | nil => intro b; simp [addAligned]
  | cons x xs ih =>
    intro b
    cases b with
    | nil => simp [addAligned]
    | cons y ys => simp [addAligned, ih ys]; omega

theorem tfFrameAux_nil {α : Type} (fuel : ℕ) (w : List α)
    (h : ¬ 512 ≤ w.length) : tfFrameAux fuel w = [] := by
  cases fuel with
  | zero => rfl
  | succ fuel => rw [tfFrameAux, if_neg h]

theorem tfFrameAux_length {α : Type} :
    ∀ (fuel : ℕ) (w : List α), w.length ≤ fuel → 512 ≤ w.length →
      (tfFrameAux fuel w).length = (w.length - 512) / 128 + 1 := by
  intro fuel
  induction fuel with
  | zero => intro w hfuel h; omega
  | succ fuel ih =>
    intro w hfuel h
    rw [tfFrameAux, if_pos h]
    simp only [List.length_cons]
    by_cases h2 : 512 ≤ (w.drop 128).length
    · rw [ih (w.drop 128) (by simp only [List.length_drop]; omega) h2]
      simp only [List.length_drop] at h2 ⊢
      omega
    · rw [tfFrameAux_nil fuel _ h2]
      simp only [List.length_drop] at h2
      simp only [List.length_nil]
      omega

theorem tfFrame_length {α : Type} (w : List α) (h : 512 ≤ w.length) :
    (tfFrame w).length = (w.length - 512) / 128 + 1 :=
  tfFrameAux_length w.length w le_rfl h

theorem tfFrame_mem_length {α : Type} :
    ∀ (fuel : ℕ) (w : List α), ∀ f ∈ tfFrameAux fuel w, f.length = 512 := by
  intro fuel
  induction fuel with
  | zero => intro w f hf; simp [tfFrameAux] at hf
  | succ fuel ih =>
    intro w f hf
    rw [tfFrameAux] at hf
    split at hf
    · rcases List.mem_cons.mp hf with h1 | h1
      · subst h1; rw [List.length_take]; omega
      · exact ih (w.drop 128) f h1
    · simp at hf

theorem overlapAdd_length {α : Type} [Add α] [Zero α] :
    ∀ fs : List (List α), (∀ f ∈ fs, f.length = 512) → fs ≠ [] →
      (overlapAdd fs).length = (fs.length - 1) * 128 + 512 := by
  intro fs
  induction fs with
  | nil => intro _ hne; exact absurd rfl hne
  | cons f rest ih =>
    intro hlen _
    have hf : f.length = 512 := hlen f (List.mem_cons_self f rest)
    cases rest with
    | nil =>
      simp [overlapAdd, addAligned_length, hf]
    | cons g rest2 =>
      have hrest : (overlapAdd (g :: rest2)).length =
          ((g :: rest2).length - 1) * 128 + 512 :=
        ih (fun x hx => hlen x (List.mem_cons_of_mem f hx)) (by simp)
      rw [show overlapAdd (f :: g :: rest2) =
            addAligned f (List.replicate 128 (0 : α) ++ overlapAdd (g :: rest2))
          from rfl,
        addAligned_length, List.length_append, List.length_replicate, hrest, hf]
      simp only [List.length_cons]
      omega

/-- C3: for a waveform of length `N ≥ 512`, `tf.signal.frame` (as used by
`DTLN_model.stftLayer` with `blockLen = 512`, `block_shift = 128`) produces
exactly `(N - 512) / 128 + 1` frames, each a full 512-sample frame (the tail
shorter than one frame is dropped, never zero-padded); and
`tf.signal.overlap_and_add` (as used by `DTLN_model.overlapAddLayer`) maps any
nonempty sequence of `k` frames of length 512 at hop 128 to a waveform of
length `(k - 1) * 128 + 512`. -/
theorem framing_overlapAdd_shape (w : List ℚ) (hw : 512 ≤ w.length)
    (fs : List (List ℚ)) (hfs : ∀ f ∈ fs, f.length = 512) (hne : fs ≠ []) :
    (tfFrame w).length = (w.length - 512) / 128 + 1 ∧
    (∀ f ∈ tfFrame w, f.length = 512) ∧
    (overlapAdd fs).length = (fs.length - 1) * 128 + 512 :=
  ⟨tfFrame_length w hw,
   tfFrame_mem_length w.length w,
   overlapAdd_length fs hfs hne⟩

set_option maxRecDepth 40000 in
/-- Witness for C3 at a concrete 640-sample waveform: it yields
`(640 - 512) / 128 + 1 = 2` frames, and overlap-adding those two 512-sample
frames yields `(2 - 1) * 128 + 512 = 640` samples. -/
theorem framing_overlapAdd_shape_witness :
    (tfFrame (List.replicate 640 (0 : ℚ))).length = 2 ∧
    (overlapAdd (tfFrame (List.replicate 640 (0 : ℚ)))).length = 640 := by
  have h := framing_overlapAdd_shape (List.replicate 640 (0 : ℚ))
    (by simp) (tfFrame (List.replicate 640 (0 : ℚ)))
    (by decide) (by decide)
  refine ⟨h.1.trans (by norm_num), ?_⟩
  rw [h.2.2]
  decide

/-! ## SpectralTransform: `DTLN_model.stftLayer` and `DTLN_model.ifftLayer`

`stftLayer` computes `stft_dat = tf.signal.rfft(frames)` and returns
`[tf.abs(stft_dat), tf.math.angle(stft_dat)]`; `ifftLayer` reconstructs
`mag * exp(1j * phase)` per bin and applies `tf.signal.irfft`.  A length-`N`
real frame is modelled as a function `ZMod N → ℝ`; `tf.signal.rfft` keeps the
`N / 2 + 1` non-redundant bins of the length-`N` DFT, and `tf.signal.irfft`
rebuilds the full conjugate-symmetric spectrum from those bins and applies the
inverse DFT (scaled by `1 / N`). -/

/-- The DFT of a real-valued frame (`tf.signal.rfft` before truncation to the
non-redundant bins): `X k = ∑ j, x j * exp (-2πi·j·k/N)`. -/
noncomputable def dftR {N : ℕ} [NeZero N] (x : ZMod N → ℝ) : ZMod N → ℂ :=
  ZMod.dft fun j => (x j : ℂ)

/-- `tf.signal.rfft`: the `N / 2 + 1` non-redundant bins of the real DFT. -/
noncomputable def rfft {N : ℕ} [NeZero N] (x : ZMod N → ℝ)
    (k : Fin (N / 2 + 1)) : ℂ :=
  dftR x ((k : ℕ) : ZMod N)

/-- `tf.abs(stft_dat)` in `DTLN_model.stftLayer`. -/
noncomputable def stftMag {N : ℕ} [NeZero N] (x : ZMod N → ℝ)
    (k : Fin (N / 2 + 1)) : ℝ :=
  Complex.abs (rfft x k)

/-- `tf.math.angle(stft_dat)` in `DTLN_model.stftLayer`. -/
noncomputable def stftPhase {N : ℕ} [NeZero N] (x : ZMod N → ℝ)
    (k : Fin (N / 2 + 1)) : ℝ :=
  (rfft x k).arg

/-- The complex spectrum `mag * exp(1j * phase)` rebuilt by
`DTLN_model.ifftLayer` before applying `tf.signal.irfft`. -/
noncomputable def spectrumOf {N : ℕ} (mag phase : Fin (N / 2 + 1) → ℝ)
    (k : Fin (N / 2 + 1)) : ℂ :=
  (mag k : ℂ) * Complex.exp (Complex.I * (phase k : ℂ))

/-- The conjugate-symmetric extension of a half spectrum to all `N` bins, as
assumed by `tf.signal.irfft`: bin `j` with `j > N / 2` holds the conjugate of
bin `N - j`. -/
noncomputable def extendSpec {N : ℕ} [NeZero N] (s : Fin (N / 2 + 1) → ℂ)
    (j : ZMod N) : ℂ :=
  if h : j.val ≤ N / 2 then s ⟨j.val, by omega⟩
  else (starRingEnd ℂ) (s ⟨N - j.val, by have hj := ZMod.val_lt j; omega⟩)

/-- `tf.signal.irfft`: inverse DFT (with the `1 / N` factor) of the
conjugate-symmetric extension, keeping the real part. -/
noncomputable def irfft {N : ℕ} [NeZero N] (s : Fin (N / 2 + 1) → ℂ)
    (n : ZMod N) : ℝ :=
  ((ZMod.dft.symm (extendSpec s)) n).re

theorem stdAddChar_conj {N : ℕ} [NeZero N] (j : ZMod N) :
    (starRingEnd ℂ) (ZMod.stdAddChar j) = ZMod.stdAddChar (-j) := by
  have habs : Complex.abs (ZMod.stdAddChar j) = 1 := by
    rw [ZMod.stdAddChar_apply]; exact Circle.abs_coe _
  have hne : ZMod.stdAddChar j ≠ 0 := by
    intro h0
    rw [h0] at habs
    simp at habs
  have h1 : ZMod.stdAddChar j * ZMod.stdAddChar (-j) = 1 := by
    rw [← AddChar.map_add_eq_mul]
    simp
  have h2 : ZMod.stdAddChar j * (starRingEnd ℂ) (ZMod.stdAddChar j) = 1 := by
    rw [Complex.mul_conj, Complex.normSq_eq_abs, habs]
    norm_num
  exact mul_left_cancel₀ hne (h2.trans h1.symm)

theorem dftR_conj {N : ℕ} [NeZero N] (x : ZMod N → ℝ) (k : ZMod N) :
    (starRingEnd ℂ) (dftR x k) = dftR x (-k) := by
  unfold dftR
  rw [ZMod.dft_apply, ZMod.dft_apply, map_sum]
  refine Finset.sum_congr rfl fun j _ => ?_
  have harg : -(j * -k) = j * k := by ring
  rw [harg, smul_eq_mul, smul_eq_mul, map_mul, stdAddChar_conj,
    Complex.conj_ofReal, neg_neg]

theorem extendSpec_rfft {N : ℕ} [NeZero N] (x : ZMod N → ℝ) :
    extendSpec (rfft x) = dftR x := by
  funext j
  unfold extendSpec
  split
  case isTrue h =>
    show dftR x ((j.val : ℕ) : ZMod N) = dftR x j
    rw [ZMod.natCast_rightInverse j]
  case isFalse h =>
    show (starRingEnd ℂ) (dftR x ((N - j.val : ℕ) : ZMod N)) = dftR x j
    have hj : j.val < N := ZMod.val_lt j
    have hcast : ((N - j.val : ℕ) : ZMod N) = -j := by
      rw [Nat.cast_sub hj.le, ZMod.natCast_self, zero_sub,
        ZMod.natCast_rightInverse j]
    rw [hcast, dftR_conj, neg_neg]

theorem spectrumOf_stft {N : ℕ} [NeZero N] (x : ZMod N → ℝ) :
    spectrumOf (stftMag x) (stftPhase x) = rfft x := by
  funext k
  unfold spectrumOf stftMag stftPhase
  rw [mul_comm Complex.I]
  exact Complex.abs_mul_exp_arg_mul_I (rfft x k)

theorem irfft_stft_aux {N : ℕ} [NeZero N] (x : ZMod N → ℝ) :
    irfft (spectrumOf (stftMag x) (stftPhase x)) = x := by
  funext n
  unfold irfft
  rw [spectrumOf_stft, extendSpec_rfft]
  unfold dftR
  rw [LinearEquiv.symm_apply_apply]
  exact Complex.ofReal_re _

/-- C4: for every time-domain frame `x` of length `L = 512`, applying
`DTLN_model.stftLayer`'s forward transform (magnitude and phase over the
`L / 2 + 1 = 257` non-redundant bins of the length-`L` real DFT) and then
`DTLN_model.ifftLayer`'s inverse transform (rebuilding `mag * exp(1j*phase)`
per bin and applying the inverse real transform) returns `x` exactly, over
real arithmetic. -/
theorem stft_ifft_roundtrip (x : ZMod 512 → ℝ) :
    irfft (spectrumOf (stftMag x) (stftPhase x)) = x :=
  irfft_stft_aux x

/-! ## DenoisePipeline: `DTLN_model.build_DTLN_model`

The keras graph of `build_DTLN_model` is embedded node by node.  Learned
components (the two `seperation_kernel` LSTM stacks, the `Conv1D` encoder and
decoder, the `InstantLayerNormalization` layers with their trained weights)
are opaque pretrained collaborators, modelled as abstract functions gathered
in `DTLNParams`.  Signal-level layers (`stftLayer`, `ifftLayer`,
`overlapAddLayer`) are the concrete definitions above, lifted to frame
sequences. -/

/-- A 512-sample frame stored as a list, viewed as a function on bins
(out-of-range indices cannot occur for full frames). -/
def listToFrame (l : List ℝ) : ZMod 512 → ℝ := fun j => l.getD j.val 0

/-- A frame function flattened back to its 512-sample list. -/
def frameToList (f : ZMod 512 → ℝ) : List ℝ :=
  (List.range 512).map fun n => f ((n : ℕ) : ZMod 512)

/-- `DTLN_model.stftLayer` on a whole waveform: frame with
`tf.signal.frame(x, 512, 128)`, then return the per-frame magnitudes and
phases of `tf.signal.rfft`. -/
noncomputable def stftLayerSeq (x : List ℝ) :
    List (Fin 257 → ℝ) × List (Fin 257 → ℝ) :=
  ((tfFrame x).map fun f => stftMag (listToFrame f),
   (tfFrame x).map fun f => stftPhase (listToFrame f))

/-- `DTLN_model.ifftLayer` on frame sequences: rebuild `mag * exp(1j*phase)`
per frame and apply `tf.signal.irfft`. -/
noncomputable def ifftLayerSeq (mags phases : List (Fin 257 → ℝ)) :
    List (List ℝ) :=
  List.zipWith (fun m p => frameToList (irfft (spectrumOf m p))) mags phases

/-- `Multiply()` on per-bin magnitude sequences. -/
def zipMulSeq (mags masks : List (Fin 257 → ℝ)) : List (Fin 257 → ℝ) :=
  List.zipWith (fun m k i => m i * k i) mags masks

/-- `Multiply()` on encoded-feature frame sequences. -/
def zipMulEnc (a b : List (List ℝ)) : List (List ℝ) :=
  List.zipWith (List.zipWith (· * ·)) a b

/-- `tf.math.log(mag + 1e-7)` applied before the optional
`InstantLayerNormalization` when `norm_stft=True`. -/
noncomputable def logMagSeq (mags : List (Fin 257 → ℝ)) : List (Fin 257 → ℝ) :=
  mags.map fun m i => Real.log (m i + 1e-7)

/-- The opaque pretrained components of `build_DTLN_model`: the
`InstantLayerNormalization` on log magnitudes, the two `seperation_kernel`
mask estimators, and the `Conv1D` encoder/decoder with the second
`InstantLayerNormalization`. -/
structure DTLNParams where
  instNorm1 : List (Fin 257 → ℝ) → List (Fin 257 → ℝ)
  sep1 : List (Fin 257 → ℝ) → List (Fin 257 → ℝ)
  encoder : List (List ℝ) → List (List ℝ)
  instNorm2 : List (List ℝ) → List (List ℝ)
  sep2 : List (List ℝ) → List (List ℝ)
  decoder : List (List ℝ) → List (List ℝ)

/-- Node `mag, angle = Lambda(self.stftLayer)(time_dat)`. -/
noncomputable def dtlnMagAngle (x : List ℝ) :
    List (Fin 257 → ℝ) × List (Fin 257 → ℝ) :=
  stftLayerSeq x

/-- Node `mag_norm`: `InstantLayerNormalization()(tf.math.log(mag + 1e-7))`
when `norm_stft` is set, else `mag` unchanged. -/
noncomputable def dtlnMagNorm (norm : Bool) (P : DTLNParams) (x : List ℝ) :
    List (Fin 257 → ℝ) :=
  if norm then P.instNorm1 (logMagSeq (dtlnMagAngle x).1) else (dtlnMagAngle x).1

/-- Node `mask_1 = self.seperation_kernel(self.numLayer, 257, mag_norm)`. -/
noncomputable def dtlnMask1 (norm : Bool) (P : DTLNParams) (x : List ℝ) :
    List (Fin 257 → ℝ) :=
  P.sep1 (dtlnMagNorm norm P x)

/-- Node `estimated_mag = Multiply()([mag, mask_1])`. -/
noncomputable def dtlnEstimatedMag (norm : Bool) (P : DTLNParams) (x : List ℝ) :
    List (Fin 257 → ℝ) :=
  zipMulSeq (dtlnMagAngle x).1 (dtlnMask1 norm P x)

/-- Node `estimated_frames_1 = Lambda(self.ifftLayer)([estimated_mag, angle])`. -/
noncomputable def dtlnFrames1 (norm : Bool) (P : DTLNParams) (x : List ℝ) :
    List (List ℝ) :=
  ifftLayerSeq (dtlnEstimatedMag norm P x) (dtlnMagAngle x).2

/-- Node `encoded_frames = Conv1D(...)(estimated_frames_1)`. -/
noncomputable def dtlnEncoded (norm : Bool) (P : DTLNParams) (x : List ℝ) :
    List (List ℝ) :=
  P.encoder (dtlnFrames1 norm P x)

/-- Node `encoded_frames_norm = InstantLayerNormalization()(encoded_frames)`. -/
noncomputable def dtlnEncodedNorm (norm : Bool) (P : DTLNParams) (x : List ℝ) :
    List (List ℝ) :=
  P.instNorm2 (dtlnEncoded norm P x)

/-- Node `mask_2 = self.seperation_kernel(self.numLayer, 256,
encoded_frames_norm)`. -/
noncomputable def dtlnMask2 (norm : Bool) (P : DTLNParams) (x : List ℝ) :
    List (List ℝ) :=
  P.sep2 (dtlnEncodedNorm norm P x)

/-- Node `estimated = Multiply()([encoded_frames, mask_2])`. -/
noncomputable def dtlnEstimated (norm : Bool) (P : DTLNParams) (x : List ℝ) :
    List (List ℝ) :=
  zipMulEnc (dtlnEncoded norm P x) (dtlnMask2 norm P x)

/-- Node `decoded_frames = Conv1D(...)(estimated)`. -/
noncomputable def dtlnDecoded (norm : Bool) (P : DTLNParams) (x : List ℝ) :
    List (List ℝ) :=
  P.decoder (dtlnEstimated norm P x)

/-- The full model `Model(inputs=time_dat, outputs=estimated_sig)` built by
`DTLN_model.build_DTLN_model`:
`estimated_sig = Lambda(self.overlapAddLayer)(decoded_frames)`. -/
noncomputable def buildDTLN (norm : Bool) (P : DTLNParams) (x : List ℝ) :
    List ℝ :=
  overlapAdd (dtlnDecoded norm P x)

theorem frameToList_listToFrame (l : List ℝ) (hl : l.length = 512) :
    frameToList (listToFrame l) = l := by
  unfold frameToList listToFrame
  apply List.ext_getElem
  · simp [hl]
  · intro n h1 h2
    simp only [List.getElem_map, List.getElem_range]
    have hn : n < 512 := by simpa using h1
    rw [ZMod.val_cast_of_lt hn, List.getD_eq_getElem l 0 (by omega)]

theorem zipMulSeq_ones (mags : List (Fin 257 → ℝ)) :
    zipMulSeq mags (mags.map fun _ _ => (1 : ℝ)) = mags := by
  unfold zipMulSeq
  rw [List.zipWith_map_right, List.zipWith_same]
  simp

theorem ifftLayerSeq_stft (x : List ℝ) :
    ifftLayerSeq (stftLayerSeq x).1 (stftLayerSeq x).2 = tfFrame x := by
  unfold ifftLayerSeq stftLayerSeq
  rw [List.zipWith_map, List.zipWith_same]
  calc (tfFrame x).map
        (fun f => frameToList
          (irfft (spectrumOf (stftMag (listToFrame f)) (stftPhase (listToFrame f)))))
      = (tfFrame x).map id := by
        refine List.map_congr_left fun f hf => ?_
        rw [irfft_stft_aux (listToFrame f)]
        exact frameToList_listToFrame f (tfFrame_mem_length _ _ f hf)
    _ = tfFrame x := List.map_id _

/-- C8: in the stage-1 masking step of `build_DTLN_model`, only the magnitude
is modified: the frames after stage 1 are the inverse transform of the pair
`(mag * mask_1, angle)` where `angle` is exactly the phase produced by
`stftLayer`, unchanged.  Consequently, whenever the stage-1 mask is all ones,
stage 1 reconstructs the framed input exactly. -/
theorem stage1_keeps_phase (norm : Bool) (P : DTLNParams) (x : List ℝ) :
    dtlnFrames1 norm P x =
      ifftLayerSeq (zipMulSeq (stftLayerSeq x).1 (dtlnMask1 norm P x))
        (stftLayerSeq x).2 ∧
    (dtlnMask1 norm P x = (stftLayerSeq x).1.map (fun _ _ => (1 : ℝ)) →
      dtlnFrames1 norm P x = tfFrame x) := by
  constructor
  · rfl
  · intro hmask
    show ifftLayerSeq (zipMulSeq (stftLayerSeq x).1 (dtlnMask1 norm P x))
        (stftLayerSeq x).2 = tfFrame x
    rw [hmask, zipMulSeq_ones, ifftLayerSeq_stft]

/-- Parameters whose stage-1 separation kernel emits an all-ones mask and
whose other learned components are the identity; used to witness C8. -/
def onesParams : DTLNParams :=
  ⟨id, fun m => m.map fun _ _ => (1 : ℝ), id, id, id, id⟩

set_option maxRecDepth 40000 in
/-- Witness for C8: with an all-ones stage-1 mask and no normalization, the
frames after stage 1 equal the framed input waveform exactly. -/
theorem stage1_keeps_phase_witness :
    dtlnFrames1 false onesParams (List.replicate 640 (0 : ℝ)) =
      tfFrame (List.replicate 640 (0 : ℝ)) :=
  (stage1_keeps_phase false onesParams (List.replicate 640 (0 : ℝ))).2 rfl

/-! ## DenoiseService: `NoiseReductionService` (`noise_reduction.py`)

Sample values are modelled two ways, matching the two concerns of the spec:
exact rationals (floats as reals) for the numeric claims, and `F32` — a
rational extended with IEEE `nan`/`inf`/`-inf` — where non-finite samples
matter.  `process_audio_data` is generic in the sample type; the numpy
operations it uses (`np.mean` along axis 1 and `np.clip`) are supplied by an
`NpOps` record with one instantiation per sample model. -/

/-- A float32 sample: a finite value (kept exact as a rational) or one of the
IEEE special values `nan`, `inf`, `-inf`. -/
inductive F32 where
  | finite (q : ℚ)
  | nan
  | inf
  | ninf
deriving DecidableEq

/-- IEEE addition on `F32` (`nan` absorbs; opposite infinities give `nan`). -/
def f32Add : F32 → F32 → F32
  | .nan, _ => .nan
  | _, .nan => .nan
  | .inf, .ninf => .nan
  | .ninf, .inf => .nan
  | .inf, _ => .inf
  | _, .inf => .inf
  | .ninf, _ => .ninf
  | _, .ninf => .ninf
  | .finite a, .finite b => .finite (a + b)

/-- IEEE division of an `F32` by a natural count (as used by `np.mean`). -/
def f32DivNat : F32 → ℕ → F32
  | .nan, _ => .nan
  | .inf, 0 => .inf
  | .ninf, 0 => .ninf
  | .finite q, 0 => if q = 0 then .nan else if 0 < q then .inf else .ninf
  | .inf, _ + 1 => .inf
  | .ninf, _ + 1 => .ninf
  | .finite q, n + 1 => .finite (q / (n + 1 : ℕ))

def f32Sum (l : List F32) : F32 := l.foldr f32Add (.finite 0)

/-- `np.mean` of one row over `F32`. -/
def f32Mean (l : List F32) : F32 := f32DivNat (f32Sum l) l.length

/-- `np.clip(x, -1.0, 1.0)` over `F32`: `nan` propagates, infinities clamp. -/
def f32Clip : F32 → F32
  | .nan => .nan
  | .inf => .finite 1
  | .ninf => .finite (-1)
  | .finite q => .finite (min 1 (max (-1) q))

/-- The numpy operations `process_audio_data` uses, per sample model. -/
structure NpOps (α : Type) where
  meanRow : List α → α
  clip1 : α → α

/-- numpy over exact rationals (floats as reals). -/
def ratOps : NpOps ℚ :=
  ⟨fun l => l.sum / (l.length : ℚ), fun q => min 1 (max (-1) q)⟩

/-- numpy over `F32` (floats with IEEE special values). -/
def f32Ops : NpOps F32 := ⟨f32Mean, f32Clip⟩

/-- A numpy array argument: 1-D mono samples or a 2-D (samples × channels)
matrix. -/
inductive NDArray (α : Type) where
  | oneD (xs : List α)
  | twoD (xss : List (List α))
deriving DecidableEq

/-- A Python object passed to `process_audio_data`: a numpy array, or
anything else (which fails the `isinstance(audio, np.ndarray)` check). -/
inductive PyObj (α : Type) where
  | arr (a : NDArray α)
  | notArray
deriving DecidableEq

/-- Error kinds surfaced by the service (the Python exception classes). -/
inductive SErr where
  | invalidInput
  | notFound
  | modelLoadError
  | inferenceError
  | writeFailed
deriving DecidableEq

/-- `np.mean(audio, axis=1)`. -/
def npMeanAxis1 {α : Type} (ops : NpOps α) (xss : List (List α)) : List α :=
  xss.map ops.meanRow

/-- The `if audio.ndim > 1: audio = np.mean(audio, axis=1)` coercion. -/
def toMono {α : Type} (ops : NpOps α) : NDArray α → List α
  | .oneD xs => xs
  | .twoD xss => npMeanAxis1 ops xss

/-- `NoiseReductionService.process_audio_data`: validate that the input is an
ndarray (the only validation present), coerce to float32 and to mono, run
`self.model.predict` (opaque; may fail opaquely), squeeze, and clip the
output to `[-1, 1]`. -/
def process_audio_data {α : Type} (ops : NpOps α)
    (predict : List α → Except Unit (List α)) :
    PyObj α → Except SErr (List α)
  | .notArray => .error .invalidInput
  | .arr a =>
    match predict (toMono ops a) with
    | .error _ => .error .inferenceError
    | .ok out => .ok (out.map ops.clip1)

/-- C1 (amended): `process_audio_data` raises `ValueError` (`InvalidInput`)
if and only if its argument is not a numpy array — the only validation
performed.  No emptiness or finiteness check exists: empty and non-finite
buffers pass straight through to the model. -/
theorem processBuffer_invalidInput_iff_notArray {α : Type} (ops : NpOps α)
    (predict : List α → Except Unit (List α)) (a : PyObj α) :
    process_audio_data ops predict a = .error .invalidInput ↔ a = .notArray := by
  cases a with
  | notArray => simp [process_audio_data]
  | arr b =>
    simp only [process_audio_data]
    cases hp : predict (toMono ops b) <;> simp

/-- Counterexample to C1 as stated: the empty buffer and a buffer holding a
single `nan` are both accepted without `InvalidInput` (here with a model that
echoes its input; the service raises no error of its own on either input). -/
theorem processBuffer_no_empty_or_nan_validation :
    process_audio_data f32Ops (fun l => .ok l) (.arr (.oneD [])) = .ok [] ∧
    process_audio_data f32Ops (fun l => .ok l) (.arr (.oneD [F32.nan]))
      = .ok [F32.nan] ∧
    process_audio_data f32Ops (fun l => .ok l) (.arr (.oneD []))
      ≠ .error .invalidInput := by
  refine ⟨rfl, rfl, ?_⟩
  intro h
  exact Except.noConfusion h

/-- C2: whenever `process_audio_data` returns successfully, every sample of
the returned buffer lies in `[-1, 1]` — the final `np.clip` guarantees this
regardless of what the model produced. -/
theorem processBuffer_output_clipped (predict : List ℚ → Except Unit (List ℚ))
    (a : PyObj ℚ) (out : List ℚ)
    (h : process_audio_data ratOps predict a = .ok out) :
    ∀ s ∈ out, -1 ≤ s ∧ s ≤ 1 := by
  cases a with
  | notArray => simp [process_audio_data] at h
  | arr b =>
    simp only [process_audio_data] at h
    cases hp : predict (toMono ratOps b) with
    | error e => rw [hp] at h; exact absurd h (by simp)
    | ok l =>
      rw [hp] at h
      simp only [Except.ok.injEq] at h
      subst h
      intro s hs
      rcases List.mem_map.mp hs with ⟨y, _, rfl⟩
      exact ⟨le_min (by norm_num) (le_max_left _ _), min_le_left _ _⟩

/-- Witness for C2 at the concrete buffer `[2]` with an echoing model: the
output is `[1]`, and its sample lies in `[-1, 1]`. -/
theorem processBuffer_output_clipped_witness :
    (-1 ≤ (1 : ℚ)) ∧ ((1 : ℚ) ≤ 1) :=
  processBuffer_output_clipped (fun l => .ok l) (.arr (.oneD [(2 : ℚ)])) [1]
    (by rfl) 1 (by decide)

/-- The unweighted per-sample average across channels, as worded by the spec
("downmixed by unweighted averaging across channels"). -/
def specAverage (row : List ℚ) : ℚ := row.sum / (row.length : ℚ)


/-! ## `NoiseReductionService.process_audio` and the file system

`process_audio(input_path, output_path)` checks `os.path.exists(input_path)`,
reads the file with `sf.read`, warns (only) on a sample-rate mismatch,
downmixes to mono, runs `process_audio_data`, and writes the result with
`sf.write(output_path, denoised, self.sample_rate)`.  The file system is an
association list from paths to files; a file is either a readable waveform or
the unreadable remnant of an interrupted write (`sf.write` writes to the
target path directly, so a failure mid-write leaves such a remnant — and
`process_audio` has no cleanup on its failure path). -/

/-- A file on disk: a readable waveform container, or a partially written,
unreadable one. -/
inductive DiskFile where
  | wav (data : NDArray ℚ) (rate : ℕ)
  | incomplete
deriving DecidableEq

/-- The file system: an association list from paths to files (the head entry
wins, so writing is consing). -/
abbrev FS := List (String × DiskFile)

def fsLookup (fs : FS) (p : String) : Option DiskFile :=
  (fs.find? fun e => e.1 == p).map (·.2)

def fsWrite (fs : FS) (p : String) (f : DiskFile) : FS := (p, f) :: fs

/-- `NoiseReductionService.process_audio`: the `writeOk` flag says whether
the `sf.write` call runs to completion or fails partway (e.g. disk full), in
which case the partially written output remains on disk. -/
def process_audio (svcRate : ℕ) (predict : List ℚ → Except Unit (List ℚ))
    (writeOk : Bool) (fs : FS) (input_path output_path : String) :
    Except SErr String × FS :=
  match fsLookup fs input_path with
  | none => (.error .notFound, fs)
  | some .incomplete => (.error .invalidInput, fs)
  | some (.wav data _rate) =>
    match process_audio_data ratOps predict (.arr (.oneD (toMono ratOps data))) with
    | .error e => (.error e, fs)
    | .ok denoised =>
      if writeOk then
        (.ok output_path, fsWrite fs output_path (.wav (.oneD denoised) svcRate))
      else
        (.error .writeFailed, fsWrite fs output_path .incomplete)

/-- On a missing input path, `process_audio` fails with `FileNotFoundError`
(`NotFound`) before anything is written: the file system is unchanged. -/
theorem processFile_notFound (svcRate : ℕ)
    (predict : List ℚ → Except Unit (List ℚ)) (writeOk : Bool) (fs : FS)
    (input_path output_path : String)
    (h : fsLookup fs input_path = none) :
    process_audio svcRate predict writeOk fs input_path output_path
      = (.error .notFound, fs) := by
  unfold process_audio
  rw [h]

/-- Any `process_audio` failure other than one inside the `sf.write` call
itself arises before the output file is created, and leaves the file system
unchanged. -/
theorem processFile_fail_before_write (svcRate : ℕ)
    (predict : List ℚ → Except Unit (List ℚ)) (writeOk : Bool) (fs fs' : FS)
    (input_path output_path : String) (e : SErr)
    (h : process_audio svcRate predict writeOk fs input_path output_path
      = (.error e, fs'))
    (hne : e ≠ .writeFailed) : fs' = fs := by
  unfold process_audio at h
  split at h
  · injection h with h1 h2; exact h2.symm
  · injection h with h1 h2; exact h2.symm
  · split at h
    · injection h with h1 h2; exact h2.symm
    · split at h
      · injection h with h1 h2; exact Except.noConfusion h1
      · injection h with h1 h2
        exact absurd (Except.error.inj h1).symm hne

/-- A one-file file system holding a readable mono input at `"in.wav"`. -/
def fsOneInput : FS := [("in.wav", .wav (.oneD [0]) 16000)]

/-- C6 evidence.  First: on a missing input, `process_audio` fails with
`NotFound` and the file system — in particular the output path — is
untouched.  Second (the bug): when the input exists but the `sf.write` call
fails partway, `process_audio` raises the error without any cleanup and the
partially written output file remains on disk at `output_path`. -/
theorem processFile_failure_evidence :
    (process_audio 16000 (fun l => .ok l) true [] "in.wav" "out.wav"
        = (.error .notFound, []) ∧
      fsLookup ([] : FS) "out.wav" = none) ∧
    ((process_audio 16000 (fun l => .ok l) false fsOneInput
        "in.wav" "out.wav").1 = .error .writeFailed ∧
      fsLookup (process_audio 16000 (fun l => .ok l) false fsOneInput
        "in.wav" "out.wav").2 "out.wav" = some .incomplete) :=
  ⟨⟨rfl, rfl⟩, rfl, rfl⟩

/-! ## Service lifecycle: `NoiseReductionService.__new__` / `__init__`,
`_load_model`, `is_ready`, `get_info`

`NoiseReductionService` keeps one class-level `_instance`; `__new__` creates
it on first use (with `_initialized = False`) and returns it ever after.
`__init__` returns immediately when `_initialized` is set; otherwise it
stores `model_path` and `sample_rate`, and `_load_model` checks the weights
file exists, infers `norm_stft` from the basename, builds the model and loads
the weights. -/

/-- One loaded (or loading) service instance: its `_initialized` flag, the
stored constructor arguments, whether `self.model` is set, the inferred
`norm_stft` flag, and a probe counting how often the weights file was read. -/
structure ServiceInst where
  initialized : Bool
  model_path : String
  sample_rate : ℕ
  modelLoaded : Bool
  normStft : Bool
  loadCount : ℕ
deriving DecidableEq

/-- `os.path.basename` (POSIX): the part of the path after the last slash. -/
def basenameL (p : List Char) : List Char :=
  (p.reverse.takeWhile fun c => c != '/').reverse

/-- Python's substring test `sub in s`: `sub` is a prefix of `s` or occurs in
its tail. -/
def containsSeq (pat : List Char) : List Char → Bool
  | [] => pat.isEmpty
  | c :: rest => pat.isPrefixOf (c :: rest) || containsSeq pat rest

/-- `norm_stft = '_norm_' in os.path.basename(self.model_path)` from
`NoiseReductionService._load_model`. -/
def normFlag (model_path : String) : Bool :=
  containsSeq "_norm_".toList (basenameL model_path.toList)

/-- The bare object made by `__new__` on first use: `_initialized = False`,
nothing else set yet. -/
def freshInst : ServiceInst := ⟨false, "", 0, false, false, 0⟩

/-- One call `NoiseReductionService(model_path, sample_rate)`: `__new__`
returns the cached `cls._instance` or creates it, then `__init__` returns at
once if `_initialized` is already set, and otherwise stores the arguments and
runs `_load_model` (`wexists` plays `os.path.exists`; a missing weights file
raises and leaves `_initialized` unset).  The result is the constructed
instance (or the raised error) together with the new `cls._instance`. -/
def constructService (wexists : String → Bool) (st : Option ServiceInst)
    (model_path : String) (sample_rate : ℕ) :
    Except SErr ServiceInst × Option ServiceInst :=
  let i0 := st.getD freshInst
  if i0.initialized then (.ok i0, some i0)
  else
    let i1 := { i0 with model_path := model_path, sample_rate := sample_rate,
                        modelLoaded := false }
    if wexists model_path then
      let i2 := { i1 with modelLoaded := true, normStft := normFlag model_path,
                          loadCount := i1.loadCount + 1, initialized := true }
      (.ok i2, some i2)
    else
      (.error .modelLoadError, some i1)

/-- `NoiseReductionService.is_ready`: `self.model is not None`. -/
def is_ready (i : ServiceInst) : Bool := i.modelLoaded

/-- The dictionary returned by `NoiseReductionService.get_info`. -/
inductive Info where
  | notReady
  | ready (model_path : String) (sample_rate : ℕ)
      (input_shape output_shape : String)
deriving DecidableEq

/-- `NoiseReductionService.get_info` (the built model's input and output
shapes are both `(None, None)`). -/
def get_info (i : ServiceInst) : Info :=
  if is_ready i then
    .ready i.model_path i.sample_rate "(None, None)" "(None, None)"
  else
    .notReady

theorem containsSeq_iff (pat : List Char) :
    ∀ s : List Char, containsSeq pat s = true ↔ pat <:+: s := by
  intro s
  induction s with
  | nil => simp [containsSeq, List.isEmpty_iff, List.infix_nil]
  | cons c rest ih =>
    simp only [containsSeq, Bool.or_eq_true, List.isPrefixOf_iff_prefix, ih]
    exact List.infix_cons_iff.symm

/-- C5: a first successful construction of `NoiseReductionService` leaves the
class holding the constructed instance with `_initialized = True` after one
single read of the weights file, and every subsequent construction — with any
arguments — returns that existing instance unchanged (in particular the
weights file is not read again: the load count stays 1). -/
theorem initialize_idempotent (wexists : String → Bool) (p : String) (r : ℕ)
    (i : ServiceInst) (st1 : Option ServiceInst)
    (hw : wexists p = true)
    (h : constructService wexists none p r = (.ok i, st1)) :
    st1 = some i ∧ i.initialized = true ∧ i.loadCount = 1 ∧
    ∀ (wex2 : String → Bool) (p2 : String) (r2 : ℕ),
      constructService wex2 (some i) p2 r2 = (.ok i, some i) := by
  have hred : constructService wexists none p r =
      (.ok ⟨true, p, r, true, normFlag p, 1⟩,
       some ⟨true, p, r, true, normFlag p, 1⟩) := by
    unfold constructService
    simp [freshInst, hw]
  rw [hred] at h
  injection h with h1 h2
  have hi : i = ⟨true, p, r, true, normFlag p, 1⟩ := (Except.ok.inj h1).symm
  subst hi
  exact ⟨h2.symm, rfl, rfl, fun wex2 p2 r2 => rfl⟩

/-- Witness for C5: after constructing the service for the repository's
default weights file, a second construction with a different path and rate
returns the original instance and state unchanged. -/
theorem initialize_idempotent_witness :
    constructService (fun _ => true)
        (some ⟨true, "DTLN_vivos_best.h5", 16000, true, false, 1⟩)
        "other.h5" 8000
      = (.ok ⟨true, "DTLN_vivos_best.h5", 16000, true, false, 1⟩,
         some ⟨true, "DTLN_vivos_best.h5", 16000, true, false, 1⟩) :=
  (initialize_idempotent (fun _ => true) "DTLN_vivos_best.h5" 16000
      ⟨true, "DTLN_vivos_best.h5", 16000, true, false, 1⟩
      (some ⟨true, "DTLN_vivos_best.h5", 16000, true, false, 1⟩)
      rfl (by rfl)).2.2.2
    (fun _ => true) "other.h5" 8000

/-- C10: after a first successful construction with `(p, r)`, constructing
the service again with any arguments returns the original instance: its
stored `model_path` is still `p` and `sample_rate` still `r`, the new
arguments are silently ignored (the cached instance is returned whether or
not the new path even exists), and `get_info` keeps reporting the first
model's path and rate. -/
theorem construct_ignores_new_args (wexists : String → Bool) (p : String)
    (r : ℕ) (i : ServiceInst) (st1 : Option ServiceInst)
    (hw : wexists p = true)
    (h : constructService wexists none p r = (.ok i, st1)) :
    i.model_path = p ∧ i.sample_rate = r ∧
    get_info i = .ready p r "(None, None)" "(None, None)" ∧
    ∀ (wex2 : String → Bool) (p2 : String) (r2 : ℕ),
      constructService wex2 st1 p2 r2 = (.ok i, st1) := by
  have hred : constructService wexists none p r =
      (.ok ⟨true, p, r, true, normFlag p, 1⟩,
       some ⟨true, p, r, true, normFlag p, 1⟩) := by
    unfold constructService
    simp [freshInst, hw]
  rw [hred] at h
  injection h with h1 h2
  have hi : i = ⟨true, p, r, true, normFlag p, 1⟩ := (Except.ok.inj h1).symm
  subst hi
  subst h2
  exact ⟨rfl, rfl, rfl, fun wex2 p2 r2 => rfl⟩

/-- Witness for C10: the constructed instance reports the first path and
rate through `get_info`, and reconstruction with a different (even
non-existent) path and rate hands back the original instance. -/
theorem construct_ignores_new_args_witness :
    get_info ⟨true, "DTLN_vivos_best.h5", 16000, true, false, 1⟩
      = .ready "DTLN_vivos_best.h5" 16000 "(None, None)" "(None, None)" ∧
    constructService (fun _ => false)
        (some ⟨true, "DTLN_vivos_best.h5", 16000, true, false, 1⟩)
        "x.h5" 44100
      = (.ok ⟨true, "DTLN_vivos_best.h5", 16000, true, false, 1⟩,
         some ⟨true, "DTLN_vivos_best.h5", 16000, true, false, 1⟩) :=
  have hmain := construct_ignores_new_args (fun _ => true)
    "DTLN_vivos_best.h5" 16000
    ⟨true, "DTLN_vivos_best.h5", 16000, true, false, 1⟩
    (some ⟨true, "DTLN_vivos_best.h5", 16000, true, false, 1⟩)
    rfl (by rfl)
  ⟨hmain.2.2.1, hmain.2.2.2 (fun _ => false) "x.h5" 44100⟩

/-- C9: whether log-magnitude normalization is applied is a flag fixed when
the model is loaded: the loaded instance's `norm_stft` is `True` exactly when
the basename of the weights path contains the substring `'_norm_'`; and in
`build_DTLN_model` that flag selects whether the stage-1 mask estimator sees
`InstantLayerNormalization(log(mag + 1e-7))` or the raw magnitudes. -/
theorem normStft_from_filename (wexists : String → Bool) (p : String) (r : ℕ)
    (i : ServiceInst) (st1 : Option ServiceInst)
    (hw : wexists p = true)
    (h : constructService wexists none p r = (.ok i, st1)) :
    (i.normStft = true ↔ "_norm_".toList <:+: basenameL p.toList) ∧
    (∀ (P : DTLNParams) (x : List ℝ),
      dtlnMagNorm true P x = P.instNorm1 (logMagSeq (stftLayerSeq x).1) ∧
      dtlnMagNorm false P x = (stftLayerSeq x).1) := by
  have hred : constructService wexists none p r =
      (.ok ⟨true, p, r, true, normFlag p, 1⟩,
       some ⟨true, p, r, true, normFlag p, 1⟩) := by
    unfold constructService
    simp [freshInst, hw]
  rw [hred] at h
  injection h with h1 h2
  have hi : i = ⟨true, p, r, true, normFlag p, 1⟩ := (Except.ok.inj h1).symm
  subst hi
  refine ⟨?_, fun P x => ⟨rfl, rfl⟩⟩
  show normFlag p = true ↔ _
  unfold normFlag
  exact containsSeq_iff _ _

/-- Witness for C9: loading the weights file `DTLN_norm_vivos.h5` turns the
normalization flag on, and indeed `'_norm_'` occurs in its basename. -/
theorem normStft_from_filename_witness :
    "_norm_".toList <:+: basenameL "DTLN_norm_vivos.h5".toList :=
  (normStft_from_filename (fun _ => true) "DTLN_norm_vivos.h5" 16000
      ⟨true, "DTLN_norm_vivos.h5", 16000, true, true, 1⟩
      (some ⟨true, "DTLN_norm_vivos.h5", 16000, true, true, 1⟩)
      rfl (by rfl)).1.mp rfl

theorem process_audio_wav (svcRate : ℕ)
    (predict : List ℚ → Except Unit (List ℚ)) (writeOk : Bool) (fs : FS)
    (input_path output_path : String) (data : NDArray ℚ) (rate : ℕ)
    (h : fsLookup fs input_path = some (.wav data rate)) :
    process_audio svcRate predict writeOk fs input_path output_path =
      match process_audio_data ratOps predict (.arr (.oneD (toMono ratOps data))) with
      | .error e => (.error e, fs)
      | .ok denoised =>
        if writeOk then
          (.ok output_path, fsWrite fs output_path (.wav (.oneD denoised) svcRate))
        else
          (.error .writeFailed, fsWrite fs output_path .incomplete) := by
  unfold process_audio
  rw [h]

/-- C7: a multi-channel input is processed exactly as the mono waveform of
unweighted per-sample channel averages.  `process_audio_data` on a 2-D array
equals `process_audio_data` on the averaged 1-D array; the mono coercion
(`np.mean(audio, axis=1)`) is exactly the per-sample average; and
`process_audio` on a file holding a multi-channel waveform returns the same
result as on a file holding the averaged mono waveform. -/
theorem processBuffer_mono_average (predict : List ℚ → Except Unit (List ℚ))
    (xss : List (List ℚ)) :
    process_audio_data ratOps predict (.arr (.twoD xss)) =
      process_audio_data ratOps predict (.arr (.oneD (xss.map specAverage))) ∧
    toMono ratOps (.twoD xss) = xss.map specAverage ∧
    ∀ (svcRate rate : ℕ) (writeOk : Bool) (fs : FS) (inp outp : String),
      (process_audio svcRate predict writeOk
          (fsWrite fs inp (.wav (.twoD xss) rate)) inp outp).1 =
        (process_audio svcRate predict writeOk
          (fsWrite fs inp (.wav (.oneD (xss.map specAverage)) rate)) inp outp).1 := by
  refine ⟨rfl, rfl, ?_⟩
  intro svcRate rate writeOk fs inp outp
  have hlook : ∀ d : NDArray ℚ,
      fsLookup (fsWrite fs inp (.wav d rate)) inp = some (.wav d rate) := by
    intro d
    simp [fsLookup, fsWrite, List.find?]
  rw [process_audio_wav svcRate predict writeOk _ inp outp _ rate
      (hlook (NDArray.twoD xss)),
    process_audio_wav svcRate predict writeOk _ inp outp _ rate
      (hlook (NDArray.oneD (xss.map specAverage)))]
  cases hres : process_audio_data ratOps predict
      (PyObj.arr (NDArray.oneD (toMono ratOps (NDArray.twoD xss)))) with
  | error e =>
    have hres2 : process_audio_data ratOps predict
        (PyObj.arr (NDArray.oneD (toMono ratOps
          (NDArray.oneD (xss.map specAverage))))) = Except.error e := hres
    rw [hres2]
  | ok denoised =>
    have hres2 : process_audio_data ratOps predict
        (PyObj.arr (NDArray.oneD (toMono ratOps
          (NDArray.oneD (xss.map specAverage))))) = Except.ok denoised := hres
    rw [hres2]
    cases writeOk <;> rfl
